import Mathlib

/-!
# Verification of the jellyfin-discovery-proxy core

A shallow embedding, in Lean, of the discovery-proxy core of the
`jellyfin-discovery-proxy` repository, together with theorems settling the
specification claims about it.

Embedded source units:
* `pkg/server` : `FetchInfo`, `IsHostname`, `ResolveHostnameToIP`
* `pkg/types`  : `SystemInfoResponse`, `ServerInfoCache.Get/Set`,
  `RequestStats.RecordRequest`, `IPBlacklist.IsBlocked`,
  `JellyfinDiscoveryResponse`
* `pkg/discovery` : `HandleRequest`, `SendResponse`, and the
  dispatch decision of `ListenLoop`

External collaborators (DNS, HTTP transport, `net/url.Parse`, JSON decoding)
are modelled as an explicit environment (`NetEnv`) of oracle functions, while
the deterministic Go standard-library routines the code leans on
(`net.ParseIP`, `net.SplitHostPort`, `net.JoinHostPort`, `IP.To4`,
`IP.IsLoopback`, `IPNet.Contains`, `strings.EqualFold` on ASCII) are embedded
concretely below.  Wall-clock instants are modelled as natural numbers
(monotonic nanosecond ticks); a `time.Duration` is likewise a natural number.
-/

namespace JDP

/-- An IP address, as Go's `net.IP`: a list of bytes (each `< 256`), of
length 4 or 16. -/
abbrev IP := List Nat

def isDigit (c : Char) : Bool := '0' ≤ c && c ≤ '9'

def digitVal (c : Char) : Nat := c.toNat - '0'.toNat

/-- One field of a dotted-quad IPv4 address, following Go's
`netip.parseIPv4`: non-empty, all decimal digits, value at most 255, and no
leading zero. -/
def parseDecByte (l : List Char) : Option Nat :=
  if l = [] then none
  else if !l.all isDigit then none
  else if 1 < l.length ∧ l.head? = some '0' then none
  else
    let n := l.foldl (fun acc c => acc * 10 + digitVal c) 0
    if n ≤ 255 then some n else none

/-- Split a character list at every occurrence of `sep` (Go's
`strings.Split` on a one-byte separator). -/
def splitOnChar (sep : Char) : List Char → List (List Char)
  | [] => [[]]
  | c :: cs =>
    let rest := splitOnChar sep cs
    if c = sep then [] :: rest
    else
      match rest with
      | g :: gs => (c :: g) :: gs
      | [] => [[c]]

/-- The field loop of `netip.parseIPv4`: every dot-separated group must be
a valid decimal byte. -/
def parseIPv4Fields : List (List Char) → Option (List Nat)
  | [] => some []
  | g :: gs =>
    match parseDecByte g, parseIPv4Fields gs with
    | some n, some ns => some (n :: ns)
    | _, _ => none

/-- Go's `netip.parseIPv4`: exactly four dot-separated decimal fields. -/
def parseIPv4 (s : String) : Option (List Nat) :=
  match parseIPv4Fields (splitOnChar '.' s.toList) with
  | some bs => if bs.length = 4 then some bs else none
  | none => none

def isHexDigit (c : Char) : Bool :=
  isDigit c || ('a' ≤ c && c ≤ 'f') || ('A' ≤ c && c ≤ 'F')

def hexVal (c : Char) : Nat :=
  if isDigit c then digitVal c
  else if 'a' ≤ c && c ≤ 'f' then c.toNat - 'a'.toNat + 10
  else c.toNat - 'A'.toNat + 10

/-- One 16-bit IPv6 group: one to four hex digits. -/
def parseHexGroup (l : List Char) : Option Nat :=
  if l = [] ∨ 4 < l.length ∨ !l.all isHexDigit then none
  else some (l.foldl (fun acc c => acc * 16 + hexVal c) 0)

/-- Split at the first `::`, when present (Go's ellipsis detection in
`netip.parseIPv6`). -/
def splitDoubleColon : List Char → Option (List Char × List Char)
  | [] => none
  | [_] => none
  | c :: d :: rest =>
    if c = ':' ∧ d = ':' then some ([], rest)
    else
      match splitDoubleColon (d :: rest) with
      | some (l, r) => some (c :: l, r)
      | none => none

/-- Byte expansion of an IPv6 group list; see `parseV6Groups`. -/
def v6GroupBytes (allowV4 : Bool) : List (List Char) → Option (List Nat)
  | [] => some []
  | [g] =>
    if allowV4 ∧ g.contains '.' then parseIPv4 (String.mk g)
    else (parseHexGroup g).map (fun n => [n / 256, n % 256])
  | g :: gs =>
    match parseHexGroup g, v6GroupBytes allowV4 gs with
    | some n, some bs => some (n / 256 :: n % 256 :: bs)
    | _, _ => none

/-- Bytes of a run of colon-separated IPv6 groups.  When `allowV4` is set the
final group may be an embedded dotted-quad IPv4, contributing four bytes
(Go permits the embedded IPv4 only in trailing position). -/
def parseV6Groups (allowV4 : Bool) (l : List Char) : Option (List Nat) :=
  if l = [] then some [] else v6GroupBytes allowV4 (splitOnChar ':' l)

/-- Go's `netip.parseIPv6` (zoneless form; `net.ParseIP` rejects any zone):
an optional single `::` marks a run of zero bytes that must stand for at
least one group, and the total is sixteen bytes. -/
def parseIPv6 (s : String) : Option IP :=
  match splitDoubleColon s.toList with
  | some (l, r) =>
    match parseV6Groups false l, parseV6Groups true r with
    | some lb, some rb =>
      if lb.length + rb.length < 16 then
        some (lb ++ List.replicate (16 - lb.length - rb.length) 0 ++ rb)
      else none
    | _, _ => none
  | none =>
    match parseV6Groups true s.toList with
    | some bs => if bs.length = 16 then some bs else none
    | none => none

/-- The 12-byte prefix marking an IPv4-mapped 16-byte address. -/
def v4Prefix : List Nat := List.replicate 10 0 ++ [255, 255]

/-- A 4-byte address in its 16-byte (IPv4-mapped) form, as
`netip.Addr.As16` produces for `net.ParseIP`. -/
def v4Mapped (b : List Nat) : IP := v4Prefix ++ b

/-- Go's `net.ParseIP`: the first special character decides the family
(`netip.ParseAddr`); a `%` (zone) is rejected. -/
def parseIP (s : String) : Option IP :=
  match s.toList.find? (fun c => c = '.' || c = ':' || c = '%') with
  | some '.' => (parseIPv4 s).map v4Mapped
  | some ':' => parseIPv6 s
  | _ => none

/-- Go's `IP.To4`. -/
def to4 (ip : IP) : Option (List Nat) :=
  if ip.length = 4 then some ip
  else if ip.length = 16 ∧ ip.take 12 = v4Prefix then some (ip.drop 12)
  else none

def IPv6loopback : IP := List.replicate 15 0 ++ [1]

/-- Go's `IP.IsLoopback`: `127.0.0.0/8` for (possibly mapped) IPv4,
else equality with `::1`. -/
def isLoopback (ip : IP) : Bool :=
  match to4 ip with
  | some ip4 => ip4.head? = some 127
  | none => ip = IPv6loopback

/-- Go's `IP.String` restricted to the 4-byte addresses produced by
`IP.To4`, the only use site in the embedded code: the dotted quad. -/
def ipv4String (b : List Nat) : String :=
  match b with
  | [x, y, z, w] =>
    Nat.repr x ++ "." ++ Nat.repr y ++ "." ++ Nat.repr z ++ "." ++ Nat.repr w
  | _ => ""

/-- Go's `net.JoinHostPort`. -/
def JoinHostPort (host port : String) : String :=
  if host.toList.contains ':' then "[" ++ host ++ "]:" ++ port
  else host ++ ":" ++ port

/-- Index of the last occurrence of `c`, if any. -/
def lastIdx (l : List Char) (c : Char) : Option Nat :=
  match l with
  | [] => none
  | x :: xs =>
    match lastIdx xs c with
    | some i => some (i + 1)
    | none => if x = c then some 0 else none

/-- Go's `net.SplitHostPort`; every error return is collapsed to `none`
(the embedded callers only distinguish success from failure). -/
def SplitHostPort (hostport : String) : Option (String × String) :=
  let l := hostport.toList
  match lastIdx l ':' with
  | none => none
  | some i =>
    if l.head? = some '[' then
      match l.findIdx? (fun c => c = ']') with
      | none => none
      | some e =>
        if e + 1 = l.length then none
        else if e + 1 = i then
          if (l.drop 1).contains '[' ∨ (l.drop (e + 1)).contains ']' then none
          else some (String.mk ((l.drop 1).take (e - 1)), String.mk (l.drop (i + 1)))
        else none
    else
      if (l.take i).contains ':' then none
      else if l.contains '[' ∨ l.contains ']' then none
      else some (String.mk (l.take i), String.mk (l.drop (i + 1)))

/-- net/url's internal `splitHostPort` followed by bracket stripping: the
behaviour of `url.URL.Hostname()`, i.e. the host component of an authority
in the sense of RFC 3986 (brackets of an IPv6 literal removed, any valid
numeric port removed). -/
def urlHostname (hostPort : String) : String :=
  let l := hostPort.toList
  let host :=
    match lastIdx l ':' with
    | some colon => if (l.drop (colon + 1)).all isDigit then l.take colon else l
    | none => l
  let host :=
    if host.head? = some '[' ∧ host.getLast? = some ']' then
      (host.drop 1).take (host.length - 2)
    else host
  String.mk host

/-! ## URLs and the external-collaborator environment -/

/-- The fields of Go's `url.URL` that the embedded code reads or writes:
`Host` is the full authority (`host` or `host:port`, brackets included for an
IPv6 literal), as in Go. -/
structure URL where
  scheme : String
  host : String
  path : String
deriving DecidableEq

/-- `url.URL.String()` for the URLs in play (scheme, authority, path). -/
def URL.toString (u : URL) : String := u.scheme ++ "://" ++ u.host ++ u.path

/-- `pkg/types`: the fields of the upstream `/System/Info/Public` body the
program decodes; all other JSON fields are ignored by construction. -/
structure SystemInfoResponse where
  Id : String
  ServerName : String
deriving DecidableEq

/-- An upstream HTTP response: status code and raw body. -/
structure HTTPResponse where
  statusCode : Nat
  body : String
deriving DecidableEq

/-- The external collaborators, as oracles: `url.Parse` (`none` = parse
error), `net.LookupIP` (`none` = resolver error), the HTTP transport
(`none` = connection/timeout failure), and `encoding/json` decoding into
`SystemInfoResponse` (`none` = malformed body). -/
structure NetEnv where
  urlParse : String → Option URL
  lookupIP : String → Option (List IP)
  httpGet : String → Option HTTPResponse
  decodeSystemInfo : String → Option SystemInfoResponse

/-- The environment faithfully mirrors Go's `net/url` on the URLs in play:
re-serialising a parse result gives back the input string.  This holds of
`url.Parse` for every URL of the `scheme://authority path` shape handled
here. -/
def URLRoundTrip (env : NetEnv) : Prop :=
  ∀ s u, env.urlParse s = some u → URL.toString u = s

/-- The resolver oracle only returns byte lists that are `net.IP` values:
every byte is below 256. -/
def LookupBytesValid (env : NetEnv) : Prop :=
  ∀ h ips, env.lookupIP h = some ips → ∀ ip ∈ ips, ∀ b ∈ ip, b < 256

/-! ## pkg/server -/

inductive FetchErr where
  | requestFailed
  | badStatus (code : Nat)
  | decodeFailed
deriving DecidableEq

/-- `server.FetchInfo`, together with the list of HTTP requests it issues
(always exactly the one GET of `serverURL + "/System/Info/Public"`; the
function never retries). -/
def FetchInfo (env : NetEnv) (serverURL : String) :
    List String × Except FetchErr SystemInfoResponse :=
  let infoURL := serverURL ++ "/System/Info/Public"
  ([infoURL],
    match env.httpGet infoURL with
    | none => .error .requestFailed
    | some resp =>
      if resp.statusCode ≠ 200 then .error (.badStatus resp.statusCode)
      else
        match env.decodeSystemInfo resp.body with
        | none => .error .decodeFailed
        | some serverInfo => .ok serverInfo)

/-- The `host, port, err := net.SplitHostPort(u.Host); if err != nil {
host = u.Host }` prelude shared by `IsHostname` and `ResolveHostnameToIP`:
on a split error the whole authority is the host and the port is empty. -/
def hostPortOf (authority : String) : String × String :=
  match SplitHostPort authority with
  | some x => x
  | none => (authority, "")

/-- `server.IsHostname`. -/
def IsHostname (env : NetEnv) (urlStr : String) : Bool :=
  match env.urlParse urlStr with
  | none => false
  | some parsedURL =>
    match parseIP (hostPortOf parsedURL.host).1 with
    | some _ => false
    | none => true

inductive ResolveErr where
  | parseFailed
  | lookupFailed
  | noIPv4 (host : String)
deriving DecidableEq

/-- The body of the loop over `net.LookupIP` results in
`ResolveHostnameToIP`: an address whose `To4` is non-nil and which is not
loopback yields its 4-byte form; any other address is skipped. -/
def usableIPv4 (ip : IP) : Option (List Nat) :=
  match to4 ip with
  | some ipv4 => if !isLoopback ip then some ipv4 else none
  | none => none

/-- `server.ResolveHostnameToIP`.  The `for` loop over `net.LookupIP`
results returns at the first address `usableIPv4` accepts, i.e. is
`List.findSome? usableIPv4`. -/
def ResolveHostnameToIP (env : NetEnv) (urlStr : String) :
    Except ResolveErr String :=
  match env.urlParse urlStr with
  | none => .error .parseFailed
  | some parsedURL =>
    let hp := hostPortOf parsedURL.host
    match env.lookupIP hp.1 with
    | none => .error .lookupFailed
    | some ips =>
      match ips.findSome? usableIPv4 with
      | some ipv4 =>
        let newHost :=
          if hp.2 ≠ "" then JoinHostPort (ipv4String ipv4) hp.2 else ipv4String ipv4
        .ok (URL.toString { parsedURL with host := newHost })
      | none => .error (.noIPv4 hp.1)

/-! ## pkg/types: cache, stats, blacklist -/

/-- `types.ServerInfoCache` (the mutex is concurrency plumbing with no
algorithmic content and is not modelled; each handler step owns the entry). -/
structure ServerInfoCache where
  Info : Option SystemInfoResponse
  Timestamp : Nat
  Duration : Nat
deriving DecidableEq

/-- `ServerInfoCache.Get` at instant `now` (`time.Since c.Timestamp` is
`now - c.Timestamp`): the cached info only if present and not expired, a
zero duration meaning the cache never expires. -/
def ServerInfoCache.Get (c : ServerInfoCache) (now : Nat) :
    Option SystemInfoResponse :=
  match c.Info with
  | some info =>
    if c.Duration = 0 ∨ now - c.Timestamp < c.Duration then some info else none
  | none => none

/-- `ServerInfoCache.Set` at instant `now`. -/
def ServerInfoCache.Set (c : ServerInfoCache) (info : SystemInfoResponse)
    (now : Nat) : ServerInfoCache :=
  { c with Info := some info, Timestamp := now }

/-- `types.RequestStats`. -/
structure RequestStats where
  LastRequestTime : Nat
  LastRequestIP : String
  TotalRequests : Int
deriving DecidableEq

/-- `RequestStats.RecordRequest` at instant `now`. -/
def RequestStats.RecordRequest (rs : RequestStats) (ip : String) (now : Nat) :
    RequestStats :=
  { LastRequestTime := now, LastRequestIP := ip,
    TotalRequests := rs.TotalRequests + 1 }

/-- A parsed CIDR rule, as Go's `net.IPNet`. -/
structure IPNet where
  ip : IP
  mask : List Nat
deriving DecidableEq

/-- Go's `networkNumberAndMask`: aligns the network number and mask to the
4-byte form when the network is IPv4. -/
def networkNumberAndMask (n : IPNet) : List Nat × List Nat :=
  match to4 n.ip with
  | some ip4 =>
    match n.mask.length with
    | 4 => (ip4, n.mask)
    | 16 => (ip4, n.mask.drop 12)
    | _ => ([], [])
  | none =>
    if n.ip.length ≠ 16 then ([], [])
    else
      match n.mask.length with
      | 4 => ([], [])
      | 16 => (n.ip, n.mask)
      | _ => ([], [])

/-- Go's `IPNet.Contains`. -/
def IPNet.Contains (n : IPNet) (ip0 : IP) : Bool :=
  let nm := networkNumberAndMask n
  let ip := match to4 ip0 with | some x => x | none => ip0
  ip.length = nm.1.length &&
    (List.zip (List.zip nm.1 nm.2) ip).all
      (fun p => p.1.1 &&& p.1.2 = p.2 &&& p.1.2)

/-- `types.IPBlacklist`: the exact-IP set (a `map[string]bool` holding only
`true` entries, hence a membership list) and the parsed subnets. -/
structure IPBlacklist where
  IPs : List String
  Subnets : List IPNet

/-- `IPBlacklist.IsBlocked`: exact match first, then subnet containment of
the parsed IP. -/
def IPBlacklist.IsBlocked (bl : IPBlacklist) (ipStr : String) : Bool :=
  if bl.IPs.contains ipStr then true
  else
    match parseIP ipStr with
    | none => false
    | some ip => bl.Subnets.any (fun subnet => subnet.Contains ip)

/-! ## pkg/discovery -/

/-- `types.JellyfinDiscoveryResponse`: the payload of one outbound UDP
datagram (the wire form is its JSON encoding; `json.Marshal` of this struct
cannot fail).  `EndpointAddress` is the always-`nil` interface field. -/
structure JellyfinDiscoveryResponse where
  Address : String
  Id : String
  Name : String
  EndpointAddress : Option String
deriving DecidableEq

/-- `discovery.SendResponse`: constructs the datagram sent back to the
requester (the socket write itself is fire-and-forget I/O). -/
def SendResponse (addressURL : String) (serverInfo : SystemInfoResponse) :
    JellyfinDiscoveryResponse :=
  { Address := addressURL, Id := serverInfo.Id, Name := serverInfo.ServerName,
    EndpointAddress := none }

/-- The response fan-out of `discovery.HandleRequest` (its final block): the
ordered list of datagrams sent for a resolved identity. -/
def buildResponses (env : NetEnv) (serverURL proxyURL : String)
    (serverInfo : SystemInfoResponse) : List JellyfinDiscoveryResponse :=
  let addressURL := if proxyURL ≠ "" then proxyURL else serverURL
  if proxyURL ≠ "" ∧ IsHostname env proxyURL then
    match ResolveHostnameToIP env proxyURL with
    | .error _ => [SendResponse addressURL serverInfo]
    | .ok ipURL => [SendResponse addressURL serverInfo, SendResponse ipURL serverInfo]
  else
    [SendResponse addressURL serverInfo]

/-- Everything observable about one run of `discovery.HandleRequest`: the
outbound datagrams in send order, the cache and stats after the run, and the
upstream GET requests issued. -/
structure HandleResult where
  sends : List JellyfinDiscoveryResponse
  cache : ServerInfoCache
  stats : RequestStats
  fetches : List String
deriving DecidableEq

/-- `discovery.HandleRequest` at instant `now`, for requester `clientIP`. -/
def HandleRequest (env : NetEnv) (clientIP serverURL proxyURL : String)
    (cache : ServerInfoCache) (bl : IPBlacklist) (stats : RequestStats)
    (now : Nat) : HandleResult :=
  if bl.IsBlocked clientIP then
    { sends := [], cache := cache, stats := stats, fetches := [] }
  else
    let stats1 := stats.RecordRequest clientIP now
    match cache.Get now with
    | some serverInfo =>
      { sends := buildResponses env serverURL proxyURL serverInfo,
        cache := cache, stats := stats1, fetches := [] }
    | none =>
      match FetchInfo env serverURL with
      | (reqs, .error _) =>
        { sends := [], cache := cache, stats := stats1, fetches := reqs }
      | (reqs, .ok serverInfo) =>
        { sends := buildResponses env serverURL proxyURL serverInfo,
          cache := cache.Set serverInfo now, stats := stats1, fetches := reqs }

/-- Code point of U+212A KELVIN SIGN, the non-ASCII member of the simple
case-folding orbit of `K`/`k`. -/
def kelvinCode : Nat := 8490

/-- Code point of U+017F LATIN SMALL LETTER LONG S, the non-ASCII member of
the simple case-folding orbit of `S`/`s`. -/
def longSCode : Nat := 383

/-- `unicode.SimpleFold` on code points, embedded exactly on every code
point whose simple-fold orbit intersects ASCII: the ASCII letters (with the
three-element orbits `K`=75 → `k`=107 → U+212A → `K` and `S`=83 → `s`=115 →
U+017F → `S`, and the two-element upper/lower orbits for the rest), plus
U+017F and U+212A themselves.  Every other code point is mapped to itself;
their orbits never meet the pure-ASCII query literal, so every comparison
the embedded `ListenLoop` performs is computed exactly as Go computes it. -/
def simpleFold (r : Nat) : Nat :=
  if r = 75 then 107
  else if r = 107 then kelvinCode
  else if r = kelvinCode then 75
  else if r = 83 then 115
  else if r = 115 then longSCode
  else if r = longSCode then 83
  else if 65 ≤ r ∧ r ≤ 90 then r + 32
  else if 97 ≤ r ∧ r ≤ 122 then r - 32
  else r

/-- The orbit walk of `strings.EqualFold`'s general case:
`r := SimpleFold(sr); for r != sr && r < tr { r = SimpleFold(r) }`.
Modelled with fuel: every embedded orbit has at most three members, so the
walk revisits `sr` (or passes `tr`) within three steps and four steps of
fuel always complete it. -/
def foldLoop : Nat → Nat → Nat → Nat → Nat
  | 0, r, _, _ => r
  | n + 1, r, sr, tr =>
    if r ≠ sr ∧ r < tr then foldLoop n (simpleFold r) sr tr else r

/-- The per-rune comparison of `strings.EqualFold`: order the two code
points, accept equal runes, apply the ASCII upper/lower check when the
larger is ASCII, and otherwise walk the simple-fold orbit of the smaller
looking for the larger. -/
def foldEq (a b : Nat) : Bool :=
  let sr := if b < a then b else a
  let tr := if b < a then a else b
  if tr = sr then true
  else if tr < 128 then decide (65 ≤ sr ∧ sr ≤ 90 ∧ tr = sr + 32)
  else decide (foldLoop 4 (simpleFold sr) sr tr = tr)

/-- `strings.EqualFold` on rune (code-point) lists: equal length and
pairwise fold-equivalence. -/
def equalFold : List Nat → List Nat → Bool
  | [], [] => true
  | c :: cs, d :: ds => foldEq c d && equalFold cs ds
  | _, _ => false

/-- Canonical representative of a (modelled) simple-fold orbit: the ASCII
lowercase letter for every member of an orbit that meets ASCII, identity
elsewhere.  Two code points are fold-equivalent exactly when their
canonical forms agree (`foldEq_iff_canon`). -/
def foldCanon (r : Nat) : Nat :=
  if r = kelvinCode then 107
  else if r = longSCode then 115
  else if 65 ≤ r ∧ r ≤ 90 then r + 32
  else r

/-- The fixed discovery query literal matched by `ListenLoop`. -/
def discoveryQuery : String := "Who is JellyfinServer?"

/-- One iteration of `discovery.ListenLoop` after a datagram `message` is
received: whether a handler is dispatched, and the datagrams sent in reply
(none at all when the payload does not match — the loop itself never
writes to the socket). -/
def ListenStep (env : NetEnv) (clientIP serverURL proxyURL : String)
    (cache : ServerInfoCache) (bl : IPBlacklist) (stats : RequestStats)
    (now : Nat) (message : String) : Bool × List JellyfinDiscoveryResponse :=
  if equalFold (message.toList.map Char.toNat)
      (discoveryQuery.toList.map Char.toNat) then
    (true, (HandleRequest env clientIP serverURL proxyURL cache bl stats now).sends)
  else
    (false, [])

/-! ## Concrete fixtures

Closed instances used to exhibit the theorems below at explicit inputs. -/

/-- A finite-table environment: two parsable URLs, one resolvable hostname
(first to `10.0.0.5`), one hostname resolving to a loopback-led list, one
reachable upstream returning HTTP 200 with a decodable body. -/
def tableEnv : NetEnv where
  urlParse := fun s =>
    if s = "http://myserver:8096" then some ⟨"http", "myserver:8096", ""⟩
    else if s = "http://myhost" then some ⟨"http", "myhost", ""⟩
    else if s = "http://192.168.1.50:8096" then some ⟨"http", "192.168.1.50:8096", ""⟩
    else none
  lookupIP := fun h =>
    if h = "myserver" then some [v4Mapped [10, 0, 0, 5]]
    else if h = "myhost" then
      some [IPv6loopback, v4Mapped [127, 0, 0, 1], v4Mapped [192, 168, 1, 9]]
    else none
  httpGet := fun u =>
    if u = "http://192.168.1.50:8096/System/Info/Public" then some ⟨200, "okbody"⟩
    else none
  decodeSystemInfo := fun b =>
    if b = "okbody" then some ⟨"abc123", "Home Media"⟩ else none

def cacheEmpty : ServerInfoCache := { Info := none, Timestamp := 0, Duration := 3600 }

def cacheFresh : ServerInfoCache :=
  { Info := some ⟨"abc123", "Home Media"⟩, Timestamp := 50, Duration := 3600 }

def stats0 : RequestStats :=
  { LastRequestTime := 0, LastRequestIP := "", TotalRequests := 41 }

def bl0 : IPBlacklist :=
  { IPs := ["10.0.0.1"], Subnets := [{ ip := [10, 0, 0, 0], mask := [255, 0, 0, 0] }] }

def blEmpty : IPBlacklist := { IPs := [], Subnets := [] }

/-- The browser-facing claim C7 speaks of a "success status"; in HTTP that
is the 2xx class. -/
def isSuccessStatus (code : Nat) : Bool := 200 ≤ code && code < 300

/-- The literal reading of claim C7: `FetchInfo` issues the single GET of
`baseURL + "/System/Info/Public"` and errors exactly on transport failure,
a non-success (non-2xx) status, or a decode failure; on success it returns
the decoded identity. -/
def FetchClaim : Prop :=
  ∀ (env : NetEnv) (serverURL : String),
    (FetchInfo env serverURL).1 = [serverURL ++ "/System/Info/Public"]
    ∧ ((∃ e, (FetchInfo env serverURL).2 = .error e) ↔
        (env.httpGet (serverURL ++ "/System/Info/Public") = none
          ∨ ∃ resp, env.httpGet (serverURL ++ "/System/Info/Public") = some resp
              ∧ (isSuccessStatus resp.statusCode = false
                ∨ env.decodeSystemInfo resp.body = none)))
    ∧ (∀ info, (FetchInfo env serverURL).2 = .ok info →
        ∃ resp, env.httpGet (serverURL ++ "/System/Info/Public") = some resp
          ∧ env.decodeSystemInfo resp.body = some info)

/-- An upstream that answers every GET with `204 No Content` and a body the
JSON decoder accepts. -/
def env204 : NetEnv where
  urlParse := fun _ => none
  lookupIP := fun _ => none
  httpGet := fun _ => some ⟨204, "nocontent"⟩
  decodeSystemInfo := fun _ => some ⟨"abc123", "Home Media"⟩

/-- The literal reading of claim C6: `IsHostname` is `false` on unparsable
input and otherwise exactly when the URL's host portion — the host
component of the authority in the RFC 3986 sense, i.e. what
`url.URL.Hostname()` returns — parses as a literal IP (v4 or v6). -/
def HostnameClaim : Prop :=
  ∀ (env : NetEnv) (s : String),
    IsHostname env s =
      match env.urlParse s with
      | none => false
      | some u => (parseIP (urlHostname u.host)).isNone

/-- An environment whose one parsable URL is `http://[::1]` — an advertise
URL holding a bracketed IPv6 literal with no port, exactly as an operator
would write it. -/
def env6 : NetEnv where
  urlParse := fun s =>
    if s = "http://[::1]" then some ⟨"http", "[::1]", ""⟩ else none
  lookupIP := fun _ => none
  httpGet := fun _ => none
  decodeSystemInfo := fun _ => none

/-! ## Supporting lemmas -/

theorem tableEnv_roundtrip : URLRoundTrip tableEnv := by
  intro s u h
  unfold tableEnv at h
  simp only at h
  split at h
  · next hs => cases h; rw [hs]; decide
  · split at h
    · next hs => cases h; rw [hs]; decide
    · split at h
      · next hs => cases h; rw [hs]; decide
      · cases h

theorem tableEnv_bytesValid : LookupBytesValid tableEnv := by
  intro h ips hips ip hip b hb
  unfold tableEnv at hips
  simp only at hips
  split at hips
  · cases hips
    exact (by decide :
      ∀ ip ∈ [v4Mapped [10, 0, 0, 5]], ∀ b ∈ ip, b < 256) ip hip b hb
  · split at hips
    · cases hips
      exact (by decide :
        ∀ ip ∈ [IPv6loopback, v4Mapped [127, 0, 0, 1], v4Mapped [192, 168, 1, 9]],
          ∀ b ∈ ip, b < 256) ip hip b hb
    · cases hips

/-- `(FetchInfo env u).2` unfolded; convenient for case analysis. -/
theorem FetchInfo_snd (env : NetEnv) (serverURL : String) :
    (FetchInfo env serverURL).2 =
      match env.httpGet (serverURL ++ "/System/Info/Public") with
      | none => .error .requestFailed
      | some resp =>
        if resp.statusCode ≠ 200 then .error (.badStatus resp.statusCode)
        else
          match env.decodeSystemInfo resp.body with
          | none => .error .decodeFailed
          | some serverInfo => .ok serverInfo := rfl

/-! ## Claim theorems -/

/-- **C3** A cache with TTL `t > 0` serves the last `set` identity unchanged
strictly before `t` has elapsed and reports absent at or after `t`; a cache
with TTL `0` serves the last `set` value at any time; a never-set cache
reports absent. -/
theorem ServerInfoCache_ttl_correct (c : ServerInfoCache)
    (info : SystemInfoResponse) (t0 d t : Nat) :
    (0 < c.Duration → d < c.Duration →
      (c.Set info t0).Get (t0 + d) = some info)
    ∧ (0 < c.Duration → c.Duration ≤ d →
      (c.Set info t0).Get (t0 + d) = none)
    ∧ (c.Duration = 0 → (c.Set info t0).Get t = some info)
    ∧ (c.Info = none → c.Get t = none) := by
  refine ⟨fun hpos hlt => ?_, fun hpos hge => ?_, fun hz => ?_, fun hn => ?_⟩
  · simp only [ServerInfoCache.Set, ServerInfoCache.Get]
    rw [if_pos (by omega)]
  · simp only [ServerInfoCache.Set, ServerInfoCache.Get]
    rw [if_neg (by omega)]
  · simp only [ServerInfoCache.Set, ServerInfoCache.Get]
    rw [if_pos (Or.inl hz)]
  · simp only [ServerInfoCache.Get, hn]

theorem ServerInfoCache_ttl_correct_witness :
    (({ Info := none, Timestamp := 7, Duration := 10 } : ServerInfoCache).Set
        ⟨"abc123", "Home Media"⟩ 100).Get 109 = some ⟨"abc123", "Home Media"⟩
    ∧ (({ Info := none, Timestamp := 7, Duration := 10 } : ServerInfoCache).Set
        ⟨"abc123", "Home Media"⟩ 100).Get 110 = none
    ∧ (({ Info := none, Timestamp := 7, Duration := 0 } : ServerInfoCache).Set
        ⟨"abc123", "Home Media"⟩ 100).Get 99999 = some ⟨"abc123", "Home Media"⟩
    ∧ ({ Info := none, Timestamp := 7, Duration := 10 } : ServerInfoCache).Get 8
        = none :=
  ⟨(ServerInfoCache_ttl_correct { Info := none, Timestamp := 7, Duration := 10 }
      ⟨"abc123", "Home Media"⟩ 100 9 0).1 (by decide) (by decide),
   (ServerInfoCache_ttl_correct { Info := none, Timestamp := 7, Duration := 10 }
      ⟨"abc123", "Home Media"⟩ 100 10 0).2.1 (by decide) (by decide),
   (ServerInfoCache_ttl_correct { Info := none, Timestamp := 7, Duration := 0 }
      ⟨"abc123", "Home Media"⟩ 100 0 99999).2.2.1 rfl,
   (ServerInfoCache_ttl_correct { Info := none, Timestamp := 7, Duration := 10 }
      ⟨"abc123", "Home Media"⟩ 100 0 8).2.2.2 rfl⟩

/-- **C4** A request from an IP blocked by the access filter — an
exact-match entry or a member of a configured subnet — produces no outbound
datagram, and the request statistics are left untouched. -/
theorem HandleRequest_blocked_silent (env : NetEnv)
    (clientIP serverURL proxyURL : String) (cache : ServerInfoCache)
    (bl : IPBlacklist) (stats : RequestStats) (now : Nat)
    (h : clientIP ∈ bl.IPs ∨
      ∃ ip, parseIP clientIP = some ip ∧ ∃ n ∈ bl.Subnets, n.Contains ip = true) :
    (HandleRequest env clientIP serverURL proxyURL cache bl stats now).sends = []
    ∧ (HandleRequest env clientIP serverURL proxyURL cache bl stats now).stats
        = stats := by
  have hb : bl.IsBlocked clientIP = true := by
    unfold IPBlacklist.IsBlocked
    by_cases hcont : bl.IPs.contains clientIP = true
    · rw [if_pos hcont]
    · rcases h with hm | ⟨ip, hip, n, hn, hc⟩
      · exact absurd (by simpa using hm) hcont
      · rw [if_neg (by simpa using hcont), hip]
        simpa [List.any_eq_true] using ⟨n, hn, hc⟩
  refine ⟨?_, ?_⟩ <;> simp [HandleRequest, hb]

theorem HandleRequest_blocked_silent_witness :
    (HandleRequest tableEnv "10.1.2.3" "http://192.168.1.50:8096"
        "http://myserver:8096" cacheFresh bl0 stats0 60).sends = []
    ∧ (HandleRequest tableEnv "10.1.2.3" "http://192.168.1.50:8096"
        "http://myserver:8096" cacheFresh bl0 stats0 60).stats = stats0 :=
  HandleRequest_blocked_silent tableEnv "10.1.2.3" "http://192.168.1.50:8096"
    "http://myserver:8096" cacheFresh bl0 stats0 60
    (Or.inr ⟨v4Mapped [10, 1, 2, 3], by decide,
      ⟨{ ip := [10, 0, 0, 0], mask := [255, 0, 0, 0] }, by decide, by decide⟩⟩)

/-- **C2** For an accepted request with an empty-or-expired cache whose
upstream fetch fails, the handler sends no datagram and leaves the cache
entry exactly as it was. -/
theorem HandleRequest_fetch_failure_silent (env : NetEnv)
    (clientIP serverURL proxyURL : String) (cache : ServerInfoCache)
    (bl : IPBlacklist) (stats : RequestStats) (now : Nat)
    (hb : bl.IsBlocked clientIP = false)
    (hmiss : cache.Get now = none)
    (e : FetchErr) (hfail : (FetchInfo env serverURL).2 = .error e) :
    (HandleRequest env clientIP serverURL proxyURL cache bl stats now).sends = []
    ∧ (HandleRequest env clientIP serverURL proxyURL cache bl stats now).cache
        = cache := by
  unfold HandleRequest
  rw [if_neg (by simp [hb]), hmiss]
  rcases hf : FetchInfo env serverURL with ⟨reqs, res⟩
  rw [hf] at hfail
  cases res with
  | error e2 => exact ⟨rfl, rfl⟩
  | ok info => exact absurd hfail (by simp)

theorem HandleRequest_fetch_failure_silent_witness :
    (HandleRequest tableEnv "192.168.1.77" "http://unreachable:8096"
        "http://myserver:8096" cacheEmpty blEmpty stats0 60).sends = []
    ∧ (HandleRequest tableEnv "192.168.1.77" "http://unreachable:8096"
        "http://myserver:8096" cacheEmpty blEmpty stats0 60).cache = cacheEmpty :=
  HandleRequest_fetch_failure_silent tableEnv "192.168.1.77"
    "http://unreachable:8096" "http://myserver:8096" cacheEmpty blEmpty stats0 60
    (by decide) (by decide) .requestFailed rfl

/-- **C10** For every accepted (non-blocked) request the handler first
records the statistics — the counter grows by exactly one and the
last-request time and IP are overwritten — before identity resolution, so
the statistics are updated even when the fetch then fails and no datagram
is sent. -/
theorem HandleRequest_stats_recorded (env : NetEnv)
    (clientIP serverURL proxyURL : String) (cache : ServerInfoCache)
    (bl : IPBlacklist) (stats : RequestStats) (now : Nat)
    (hb : bl.IsBlocked clientIP = false) :
    (HandleRequest env clientIP serverURL proxyURL cache bl stats now).stats
        = { LastRequestTime := now, LastRequestIP := clientIP,
            TotalRequests := stats.TotalRequests + 1 }
    ∧ (∀ e, cache.Get now = none → (FetchInfo env serverURL).2 = .error e →
        (HandleRequest env clientIP serverURL proxyURL cache bl stats now).sends
          = []) := by
  constructor
  · unfold HandleRequest
    rw [if_neg (by simp [hb])]
    rcases hg : cache.Get now with _ | info
    · rcases hf : FetchInfo env serverURL with ⟨reqs, res⟩
      rcases res with e | info <;> rfl
    · rfl
  · intro e hmiss hfail
    unfold HandleRequest
    rw [if_neg (by simp [hb]), hmiss]
    rcases hf : FetchInfo env serverURL with ⟨reqs, res⟩
    rw [hf] at hfail
    cases res with
    | error e2 => rfl
    | ok info => exact absurd hfail (by simp)

theorem HandleRequest_stats_recorded_witness :
    (HandleRequest tableEnv "192.168.1.77" "http://unreachable:8096"
        "http://myserver:8096" cacheEmpty blEmpty stats0 60).stats
        = { LastRequestTime := 60, LastRequestIP := "192.168.1.77",
            TotalRequests := 42 }
    ∧ (HandleRequest tableEnv "192.168.1.77" "http://unreachable:8096"
        "http://myserver:8096" cacheEmpty blEmpty stats0 60).sends = [] :=
  ⟨(HandleRequest_stats_recorded tableEnv "192.168.1.77"
      "http://unreachable:8096" "http://myserver:8096" cacheEmpty blEmpty stats0
      60 (by decide)).1,
   (HandleRequest_stats_recorded tableEnv "192.168.1.77"
      "http://unreachable:8096" "http://myserver:8096" cacheEmpty blEmpty stats0
      60 (by decide)).2 .requestFailed (by decide) rfl⟩

/-- **C9** Once a request has fetched successfully and written the cache at
time `T`, an identical request handled at `T2` inside the TTL window (any
time at all when the TTL is zero) reads the cached identity and issues no
upstream fetch. -/
theorem HandleRequest_cache_idempotent (env : NetEnv)
    (clientIP serverURL proxyURL : String) (cache : ServerInfoCache)
    (bl : IPBlacklist) (stats stats2 : RequestStats) (T T2 : Nat)
    (hb : bl.IsBlocked clientIP = false)
    (hmiss : cache.Get T = none)
    (info : SystemInfoResponse)
    (hfetch : (FetchInfo env serverURL).2 = .ok info)
    (hwin : cache.Duration = 0 ∨ T2 - T < cache.Duration) :
    (HandleRequest env clientIP serverURL proxyURL cache bl stats T).cache.Get T2
      = some info
    ∧ (HandleRequest env clientIP serverURL proxyURL
        (HandleRequest env clientIP serverURL proxyURL cache bl stats T).cache
        bl stats2 T2).fetches = [] := by
  have hc1 : (HandleRequest env clientIP serverURL proxyURL cache bl stats T).cache
      = cache.Set info T := by
    unfold HandleRequest
    rw [if_neg (by simp [hb]), hmiss]
    rcases hf : FetchInfo env serverURL with ⟨reqs, res⟩
    rw [hf] at hfetch
    cases res with
    | error e2 => exact absurd hfetch (by simp)
    | ok info2 =>
      have h2 : info2 = info := by
        have := hfetch
        simp only at this
        exact Except.ok.inj this
      subst h2
      rfl
  have hget : (cache.Set info T).Get T2 = some info := by
    simp only [ServerInfoCache.Set, ServerInfoCache.Get]
    rw [if_pos hwin]
  rw [hc1]
  refine ⟨hget, ?_⟩
  unfold HandleRequest
  rw [if_neg (by simp [hb]), hget]

theorem HandleRequest_cache_idempotent_witness :
    (HandleRequest tableEnv "192.168.1.77" "http://192.168.1.50:8096"
        "http://myserver:8096" cacheEmpty blEmpty stats0 60).cache.Get 100
      = some ⟨"abc123", "Home Media"⟩
    ∧ (HandleRequest tableEnv "192.168.1.77" "http://192.168.1.50:8096"
        "http://myserver:8096"
        (HandleRequest tableEnv "192.168.1.77" "http://192.168.1.50:8096"
          "http://myserver:8096" cacheEmpty blEmpty stats0 60).cache
        blEmpty stats0 100).fetches = [] :=
  HandleRequest_cache_idempotent tableEnv "192.168.1.77"
    "http://192.168.1.50:8096" "http://myserver:8096" cacheEmpty blEmpty stats0
    stats0 60 100 (by decide) (by decide) ⟨"abc123", "Home Media"⟩ rfl
    (Or.inr (by decide))

theorem simpleFold_upper (sr : Nat) (h1 : 65 ≤ sr) (h2 : sr ≤ 90) :
    simpleFold sr = sr + 32 := by
  simp only [simpleFold, kelvinCode, longSCode]
  split_ifs <;> omega

theorem simpleFold_lower (sr : Nat) (h1 : 97 ≤ sr) (h2 : sr ≤ 122)
    (h3 : sr ≠ 107) (h4 : sr ≠ 115) : simpleFold sr = sr - 32 := by
  simp only [simpleFold, kelvinCode, longSCode]
  split_ifs <;> omega

theorem simpleFold_other (sr : Nat) (hu : ¬(65 ≤ sr ∧ sr ≤ 90))
    (hl : ¬(97 ≤ sr ∧ sr ≤ 122)) (hk : sr ≠ 8490) (hs : sr ≠ 383) :
    simpleFold sr = sr := by
  simp only [simpleFold, kelvinCode, longSCode]
  split_ifs <;> omega

/-- The orbit walk of `foldEq`'s general case finds the larger code point
exactly when the two code points share a fold orbit, i.e. when their
canonical forms agree. -/
theorem foldLoop_pair (sr tr : Nat) (hlt : sr < tr) (h128 : 128 ≤ tr) :
    (foldLoop 4 (simpleFold sr) sr tr = tr) ↔ foldCanon sr = foldCanon tr := by
  by_cases h75 : sr = 75
  · subst h75
    simp only [foldLoop, show simpleFold 75 = 107 from rfl,
      show simpleFold 107 = 8490 from rfl, show simpleFold 8490 = 75 from rfl]
    simp only [foldCanon, kelvinCode, longSCode]
    split_ifs <;> omega
  by_cases h107 : sr = 107
  · subst h107
    simp only [foldLoop, show simpleFold 75 = 107 from rfl,
      show simpleFold 107 = 8490 from rfl, show simpleFold 8490 = 75 from rfl]
    simp only [foldCanon, kelvinCode, longSCode]
    split_ifs <;> omega
  by_cases hKel : sr = 8490
  · subst hKel
    simp only [foldLoop, show simpleFold 75 = 107 from rfl,
      show simpleFold 107 = 8490 from rfl, show simpleFold 8490 = 75 from rfl]
    simp only [foldCanon, kelvinCode, longSCode]
    split_ifs <;> omega
  by_cases h83 : sr = 83
  · subst h83
    simp only [foldLoop, show simpleFold 83 = 115 from rfl,
      show simpleFold 115 = 383 from rfl, show simpleFold 383 = 83 from rfl]
    simp only [foldCanon, kelvinCode, longSCode]
    split_ifs <;> omega
  by_cases h115 : sr = 115
  · subst h115
    simp only [foldLoop, show simpleFold 83 = 115 from rfl,
      show simpleFold 115 = 383 from rfl, show simpleFold 383 = 83 from rfl]
    simp only [foldCanon, kelvinCode, longSCode]
    split_ifs <;> omega
  by_cases hLS : sr = 383
  · subst hLS
    simp only [foldLoop, show simpleFold 83 = 115 from rfl,
      show simpleFold 115 = 383 from rfl, show simpleFold 383 = 83 from rfl]
    simp only [foldCanon, kelvinCode, longSCode]
    split_ifs <;> omega
  by_cases hU : 65 ≤ sr ∧ sr ≤ 90
  · have e0 : simpleFold sr = sr + 32 := simpleFold_upper sr hU.1 hU.2
    have e1 : simpleFold (sr + 32) = sr := by
      have e := simpleFold_lower (sr + 32) (by omega) (by omega) (by omega)
        (by omega)
      rw [e]
      omega
    simp only [foldLoop, e0, e1]
    simp only [foldCanon, kelvinCode, longSCode]
    split_ifs <;> omega
  by_cases hL : 97 ≤ sr ∧ sr ≤ 122
  · have e0 : simpleFold sr = sr - 32 := simpleFold_lower sr hL.1 hL.2 h107 h115
    have e1 : simpleFold (sr - 32) = sr := by
      have e := simpleFold_upper (sr - 32) (by omega) (by omega)
      rw [e]
      omega
    simp only [foldLoop, e0, e1]
    simp only [foldCanon, kelvinCode, longSCode]
    split_ifs <;> omega
  · have e0 : simpleFold sr = sr := simpleFold_other sr hU hL hKel hLS
    simp only [foldLoop, e0]
    simp only [foldCanon, kelvinCode, longSCode]
    split_ifs <;> omega

theorem foldEq_pair (sr tr : Nat) (h : sr ≤ tr) :
    foldEq sr tr = true ↔ foldCanon sr = foldCanon tr := by
  unfold foldEq
  have hx : ¬ tr < sr := Nat.not_lt.mpr h
  simp only [if_neg hx]
  by_cases heq : tr = sr
  · subst heq
    simp
  · rw [if_neg heq]
    have hlt : sr < tr := Nat.lt_of_le_of_ne h (fun hh => heq hh.symm)
    by_cases h128 : tr < 128
    · rw [if_pos h128]
      simp only [decide_eq_true_eq]
      simp only [foldCanon, kelvinCode, longSCode]
      split_ifs <;> omega
    · rw [if_neg h128]
      simp only [decide_eq_true_eq]
      exact foldLoop_pair sr tr hlt (Nat.not_lt.mp h128)

/-- Two code points are fold-equivalent exactly when their canonical forms
agree. -/
theorem foldEq_iff_canon (a b : Nat) :
    foldEq a b = true ↔ foldCanon a = foldCanon b := by
  have hsym : foldEq a b = foldEq b a := by
    unfold foldEq
    by_cases h1 : b < a
    · have h2 : ¬ a < b := by omega
      simp only [if_pos h1, if_neg h2]
    · by_cases h2 : a < b
      · simp only [if_neg h1, if_pos h2]
      · have h3 : a = b := by omega
        subst h3
        rfl
  rcases Nat.le_total a b with h | h
  · exact foldEq_pair a b h
  · rw [hsym]
    exact (foldEq_pair b a h).trans eq_comm

theorem equalFold_iff_map (l1 l2 : List Nat) :
    equalFold l1 l2 = true ↔ l1.map foldCanon = l2.map foldCanon := by
  induction l1 generalizing l2 with
  | nil => cases l2 <;> simp [equalFold]
  | cons c cs ih =>
    cases l2 with
    | nil => simp [equalFold]
    | cons d ds => simp [equalFold, foldEq_iff_canon, ih]

/-- **C8** One loop iteration dispatches a per-request handler exactly when
the inbound payload case-insensitively equals the fixed query string
`"Who is JellyfinServer?"` — the payload's code points, each replaced by
the canonical form of its case-folding orbit, equal the query's code
points; any other payload produces no outbound datagram of any kind. -/
theorem ListenStep_dispatch_iff (env : NetEnv)
    (clientIP serverURL proxyURL : String) (cache : ServerInfoCache)
    (bl : IPBlacklist) (stats : RequestStats) (now : Nat) (message : String) :
    ((ListenStep env clientIP serverURL proxyURL cache bl stats now message).1
        = true
      ↔ (message.toList.map Char.toNat).map foldCanon
          = "who is jellyfinserver?".toList.map Char.toNat)
    ∧ ((ListenStep env clientIP serverURL proxyURL cache bl stats now
          message).1 = false →
        (ListenStep env clientIP serverURL proxyURL cache bl stats now
          message).2 = []) := by
  have hq : (discoveryQuery.toList.map Char.toNat).map foldCanon
      = "who is jellyfinserver?".toList.map Char.toNat := by decide
  unfold ListenStep
  by_cases h : equalFold (message.toList.map Char.toNat)
      (discoveryQuery.toList.map Char.toNat) = true
  · rw [if_pos h]
    refine ⟨⟨fun _ => ?_, fun _ => rfl⟩, fun hc => absurd hc (by simp)⟩
    exact ((equalFold_iff_map _ _).mp h).trans hq
  · rw [if_neg h]
    refine ⟨⟨fun hc => absurd hc (by simp), fun hmap => ?_⟩, fun _ => rfl⟩
    exact absurd ((equalFold_iff_map _ _).mpr (hmap.trans hq.symm)) h

theorem ListenStep_dispatch_iff_witness :
    (ListenStep tableEnv "192.168.1.77" "http://192.168.1.50:8096"
        "http://myserver:8096" cacheFresh blEmpty stats0 60
        "WHO IS JELLYFINSERVER?").1 = true
    ∧ (ListenStep tableEnv "192.168.1.77" "http://192.168.1.50:8096"
        "http://myserver:8096" cacheFresh blEmpty stats0 60
        "Who iſ JellyfinServer?").1 = true
    ∧ (ListenStep tableEnv "192.168.1.77" "http://192.168.1.50:8096"
        "http://myserver:8096" cacheFresh blEmpty stats0 60
        "Who is PlexServer?").2 = [] :=
  ⟨(ListenStep_dispatch_iff tableEnv "192.168.1.77" "http://192.168.1.50:8096"
      "http://myserver:8096" cacheFresh blEmpty stats0 60
      "WHO IS JELLYFINSERVER?").1.mpr (by decide),
   (ListenStep_dispatch_iff tableEnv "192.168.1.77" "http://192.168.1.50:8096"
      "http://myserver:8096" cacheFresh blEmpty stats0 60
      "Who iſ JellyfinServer?").1.mpr (by decide),
   (ListenStep_dispatch_iff tableEnv "192.168.1.77" "http://192.168.1.50:8096"
      "http://myserver:8096" cacheFresh blEmpty stats0 60
      "Who is PlexServer?").2 (by decide)⟩

theorem usableIPv4_eq_none (q : IP) :
    usableIPv4 q = none ↔ (to4 q = none ∨ isLoopback q = true) := by
  unfold usableIPv4
  rcases h : to4 q with _ | v
  · simp
  · rcases hl : isLoopback q <;> simp [h, hl]

theorem usableIPv4_eq_some (ip : IP) (ip4 : List Nat) (h4 : to4 ip = some ip4)
    (hlb : isLoopback ip = false) : usableIPv4 ip = some ip4 := by
  unfold usableIPv4
  rw [h4, hlb]
  rfl

theorem findSome?_first {α β : Type} (f : α → Option β) (pre : List α) (a : α)
    (post : List α) (b : β) (hpre : ∀ x ∈ pre, f x = none) (ha : f a = some b) :
    (pre ++ a :: post).findSome? f = some b := by
  induction pre with
  | nil => simp [List.findSome?_cons, ha]
  | cons x xs ih =>
    rw [List.cons_append, List.findSome?_cons, hpre x (List.mem_cons_self x xs)]
    exact ih (fun y hy => hpre y (List.mem_cons_of_mem x hy))

/-- **C5** `ResolveHostnameToIP`, on a parsable URL, performs DNS resolution
of the host component, selects the first resolved address having a
non-loopback IPv4 form, rewrites the URL's host to that literal while
preserving any port present, and returns the rewritten URL; it errors
exactly when the DNS lookup fails or no non-loopback IPv4 result exists. -/
theorem ResolveHostnameToIP_correct (env : NetEnv) (urlStr : String) (u : URL)
    (host port : String)
    (hp : env.urlParse urlStr = some u)
    (hhp : hostPortOf u.host = (host, port)) :
    (env.lookupIP host = none →
      ResolveHostnameToIP env urlStr = .error .lookupFailed)
    ∧ (∀ ips, env.lookupIP host = some ips →
        ((∀ q ∈ ips, to4 q = none ∨ isLoopback q = true) →
          ResolveHostnameToIP env urlStr = .error (.noIPv4 host))
        ∧ (∀ pre ip post ip4, ips = pre ++ ip :: post →
            (∀ q ∈ pre, to4 q = none ∨ isLoopback q = true) →
            to4 ip = some ip4 → isLoopback ip = false →
            ResolveHostnameToIP env urlStr =
              .ok (URL.toString
                { u with host :=
                    (if port ≠ "" then JoinHostPort (ipv4String ip4) port
                     else ipv4String ip4) }))) := by
  refine ⟨fun hl => ?_, fun ips hl => ⟨fun hall => ?_, ?_⟩⟩
  · simp [ResolveHostnameToIP, hp, hhp, hl]
  · have hN : ips.findSome? usableIPv4 = none :=
      List.findSome?_eq_none_iff.mpr
        (fun x hx => (usableIPv4_eq_none x).mpr (hall x hx))
    simp [ResolveHostnameToIP, hp, hhp, hl, hN]
  · intro pre ip post ip4 hsplit hpre h4 hlb
    subst hsplit
    have hS : (pre ++ ip :: post).findSome? usableIPv4 = some ip4 :=
      findSome?_first _ pre ip post ip4
        (fun q hq => (usableIPv4_eq_none q).mpr (hpre q hq))
        (usableIPv4_eq_some ip ip4 h4 hlb)
    simp [ResolveHostnameToIP, hp, hhp, hl, hS]

theorem ResolveHostnameToIP_correct_witness :
    ResolveHostnameToIP tableEnv "http://myhost" = .ok "http://192.168.1.9"
    ∧ ResolveHostnameToIP tableEnv "http://myserver:8096"
        = .ok "http://10.0.0.5:8096" :=
  ⟨by
    have h := (ResolveHostnameToIP_correct tableEnv "http://myhost"
      ⟨"http", "myhost", ""⟩ "myhost" "" rfl (by decide)).2
      [IPv6loopback, v4Mapped [127, 0, 0, 1], v4Mapped [192, 168, 1, 9]] rfl
    have h2 := h.2 [IPv6loopback, v4Mapped [127, 0, 0, 1]]
      (v4Mapped [192, 168, 1, 9]) [] [192, 168, 1, 9] rfl (by decide)
      (by decide) (by decide)
    simpa using h2,
   by
    have h := (ResolveHostnameToIP_correct tableEnv "http://myserver:8096"
      ⟨"http", "myserver:8096", ""⟩ "myserver" "8096" rfl (by decide)).2
      [v4Mapped [10, 0, 0, 5]] rfl
    have h2 := h.2 [] (v4Mapped [10, 0, 0, 5]) [] [10, 0, 0, 5] rfl
      (by simp) (by decide) (by decide)
    simpa using h2⟩

/-- **C7 counterexample** The claim reads "returns an error exactly when …
the response status is not a success status"; HTTP success statuses are the
2xx class, but the code rejects everything except 200 (`http.StatusOK`).
An upstream answering `204 No Content` with a decodable body refutes the
claim as stated. -/
theorem FetchInfo_claim_false : ¬ FetchClaim := by
  intro h
  have h2 := (h env204 "http://s").2.1
  have hx := h2.mp ⟨.badStatus 204, rfl⟩
  rcases hx with hnone | ⟨resp, hresp, hbad⟩
  · exact absurd hnone (by decide)
  · have hr : (⟨204, "nocontent"⟩ : HTTPResponse) = resp := by
      have := hresp
      simp only [env204] at this
      exact Option.some.inj this
    subst hr
    rcases hbad with hs | hd
    · exact absurd hs (by decide)
    · exact absurd hd (by decide)

/-- **C7 amended** `FetchInfo` issues the single GET of
`baseURL + "/System/Info/Public"` (no retries) and returns an error exactly
when the HTTP request itself fails, when the response status is not 200
(`http.StatusOK` — any other status, a non-200 success status included, is
rejected), or when the body fails to decode; on success it returns the
identity decoded from the body of a 200 response. -/
theorem FetchInfo_correct (env : NetEnv) (serverURL : String) :
    (FetchInfo env serverURL).1 = [serverURL ++ "/System/Info/Public"]
    ∧ ((∃ e, (FetchInfo env serverURL).2 = .error e) ↔
        (env.httpGet (serverURL ++ "/System/Info/Public") = none
          ∨ ∃ resp, env.httpGet (serverURL ++ "/System/Info/Public") = some resp
              ∧ (resp.statusCode ≠ 200
                ∨ env.decodeSystemInfo resp.body = none)))
    ∧ (∀ info, (FetchInfo env serverURL).2 = .ok info →
        ∃ resp, env.httpGet (serverURL ++ "/System/Info/Public") = some resp
          ∧ resp.statusCode = 200
          ∧ env.decodeSystemInfo resp.body = some info) := by
  refine ⟨rfl, ?_, ?_⟩
  · rw [FetchInfo_snd]
    rcases hg : env.httpGet (serverURL ++ "/System/Info/Public") with _ | resp
    · simp
    · by_cases hs : resp.statusCode = 200
      · rcases hd : env.decodeSystemInfo resp.body with _ | info
        · simp [hs, hd]
        · simp [hs, hd]
      · simp [hs]
  · intro info hok
    rw [FetchInfo_snd] at hok
    rcases hg : env.httpGet (serverURL ++ "/System/Info/Public") with _ | resp <;>
      rw [hg] at hok
    · exact absurd hok (by simp)
    · by_cases hs : resp.statusCode = 200
      · rcases hd : env.decodeSystemInfo resp.body with _ | info2 <;>
          simp [hs, hd] at hok
        exact ⟨resp, rfl, hs, hok ▸ hd⟩
      · simp [hs] at hok

theorem FetchInfo_correct_witness :
    (FetchInfo tableEnv "http://192.168.1.50:8096").1
        = ["http://192.168.1.50:8096/System/Info/Public"]
    ∧ (∃ resp,
        tableEnv.httpGet "http://192.168.1.50:8096/System/Info/Public"
          = some resp
        ∧ resp.statusCode = 200
        ∧ tableEnv.decodeSystemInfo resp.body = some ⟨"abc123", "Home Media"⟩)
    ∧ (∃ e, (FetchInfo tableEnv "http://down:9").2 = .error e) :=
  ⟨(FetchInfo_correct tableEnv "http://192.168.1.50:8096").1,
   (FetchInfo_correct tableEnv "http://192.168.1.50:8096").2.2
     ⟨"abc123", "Home Media"⟩ rfl,
   (FetchInfo_correct tableEnv "http://down:9").2.1.mpr (Or.inl rfl)⟩

/-- **C6 counterexample** For the URL `http://[::1]` the host portion is
the IPv6 literal `::1` (what `url.URL.Hostname()` returns), so the claim
demands `false`; but `net.SplitHostPort` fails on `"[::1]"` (no port), the
code falls back to the raw authority `"[::1]"`, which `net.ParseIP`
rejects, and `IsHostname` returns `true`. -/
theorem IsHostname_claim_false : ¬ HostnameClaim := fun h =>
  absurd (h env6 "http://[::1]") (by decide)

/-- **C6 amended** `IsHostname` returns `false` on unparsable input, and
otherwise returns `true` exactly when the string `net.ParseIP` is applied
to — the host of the `net.SplitHostPort` split when it succeeds, the whole
authority when it fails — is not a literal IP.  (A bracketed IPv6 literal
without a port fails the split and is therefore classified as a hostname.) -/
theorem IsHostname_characterization (env : NetEnv) (s : String) :
    (IsHostname env s = true ↔
      ∃ u, env.urlParse s = some u ∧ parseIP (hostPortOf u.host).1 = none)
    ∧ (env.urlParse s = none → IsHostname env s = false) := by
  constructor
  · rcases hp : env.urlParse s with _ | u
    · simp [IsHostname, hp]
    · rcases hip : parseIP (hostPortOf u.host).1 with _ | ip
      · simp [IsHostname, hp, hip]
      · simp [IsHostname, hp, hip]
  · intro hp
    simp [IsHostname, hp]

theorem IsHostname_characterization_witness :
    IsHostname tableEnv "http://myserver:8096" = true
    ∧ IsHostname tableEnv "://nonsense" = false :=
  ⟨(IsHostname_characterization tableEnv "http://myserver:8096").1.mpr
     ⟨⟨"http", "myserver:8096", ""⟩, rfl, by decide⟩,
   (IsHostname_characterization tableEnv "://nonsense").2 rfl⟩

set_option maxRecDepth 4096 in
/-- Decimal rendering of a byte inverts the dotted-quad field parser, its
characters are digits, and it is non-empty (checked over all 256 bytes). -/
theorem parseDecByte_repr_all :
    ∀ n : Fin 256, parseDecByte (Nat.repr n.val).toList = some n.val
      ∧ (Nat.repr n.val).toList.all isDigit = true
      ∧ (Nat.repr n.val).toList ≠ [] := by decide

theorem isDigit_excl {c : Char} (h : isDigit c = true) :
    c ≠ ':' ∧ c ≠ '[' ∧ c ≠ ']' ∧ c ≠ '.' ∧ c ≠ '%' := by
  refine ⟨?_, ?_, ?_, ?_, ?_⟩ <;> rintro rfl <;> exact absurd h (by decide)

theorem splitOnChar_of_not_mem (sep : Char) (l : List Char) (h : sep ∉ l) :
    splitOnChar sep l = [l] := by
  induction l with
  | nil => rfl
  | cons c cs ih =>
    have h1 : ¬ c = sep := fun hh => h (by simp [hh])
    have h2 : sep ∉ cs := fun hm => h (by simp [hm])
    simp [splitOnChar, h1, ih h2]

theorem splitOnChar_append (sep : Char) (a rest : List Char) (h : sep ∉ a) :
    splitOnChar sep (a ++ sep :: rest) = a :: splitOnChar sep rest := by
  induction a with
  | nil => simp [splitOnChar]
  | cons c cs ih =>
    have h1 : ¬ c = sep := fun hh => h (by simp [hh])
    have h2 : sep ∉ cs := fun hm => h (by simp [hm])
    simp only [List.cons_append, splitOnChar, if_neg h1, List.append_eq]
    rw [ih h2]

theorem lastIdx_eq_none (l : List Char) (c : Char) (h : c ∉ l) :
    lastIdx l c = none := by
  induction l with
  | nil => rfl
  | cons x xs ih =>
    have h1 : ¬ x = c := fun hh => h (by simp [hh])
    have h2 : c ∉ xs := fun hm => h (by simp [hm])
    simp [lastIdx, ih h2, h1]

theorem not_mem_of_lastIdx_none (l : List Char) (c : Char)
    (h : lastIdx l c = none) : c ∉ l := by
  induction l with
  | nil => simp
  | cons x xs ih =>
    rw [lastIdx] at h
    rcases hx : lastIdx xs c with _ | j
    · rw [hx] at h
      by_cases hxc : x = c
      · rw [if_pos hxc] at h; cases h
      · intro hm
        rcases List.mem_cons.mp hm with hm1 | hm2
        · exact hxc hm1.symm
        · exact ih hx hm2
    · rw [hx] at h; cases h

theorem lastIdx_append (l1 l2 : List Char) (c : Char) (h2 : c ∉ l2) :
    lastIdx (l1 ++ c :: l2) c = some l1.length := by
  induction l1 with
  | nil => simp [lastIdx, lastIdx_eq_none l2 c h2]
  | cons x xs ih => simp [lastIdx, ih]

theorem not_mem_drop_succ_lastIdx (l : List Char) (c : Char) (i : Nat)
    (h : lastIdx l c = some i) : c ∉ l.drop (i + 1) := by
  induction l generalizing i with
  | nil => cases h
  | cons x xs ih =>
    rw [lastIdx] at h
    rcases hx : lastIdx xs c with _ | j
    · rw [hx] at h
      by_cases hxc : x = c
      · rw [if_pos hxc] at h
        cases h
        simpa using not_mem_of_lastIdx_none xs c hx
      · rw [if_neg hxc] at h; cases h
    · rw [hx] at h
      cases h
      simpa using ih j hx

theorem parseDecByte_repr (n : Nat) (h : n < 256) :
    parseDecByte (Nat.repr n).toList = some n :=
  (parseDecByte_repr_all ⟨n, h⟩).1

theorem repr_all_digits (n : Nat) (h : n < 256) :
    ∀ c ∈ (Nat.repr n).toList, isDigit c = true := by
  simpa [List.all_eq_true] using (parseDecByte_repr_all ⟨n, h⟩).2.1

theorem repr_ne_nil (n : Nat) (h : n < 256) : (Nat.repr n).toList ≠ [] :=
  (parseDecByte_repr_all ⟨n, h⟩).2.2

theorem ipv4String_toList (x y z w : Nat) :
    (ipv4String [x, y, z, w]).toList
      = (Nat.repr x).toList ++ '.' :: ((Nat.repr y).toList
          ++ '.' :: ((Nat.repr z).toList ++ '.' :: (Nat.repr w).toList)) := by
  show (Nat.repr x ++ "." ++ Nat.repr y ++ "." ++ Nat.repr z ++ "."
      ++ Nat.repr w).data = _
  simp only [String.data_append, List.append_assoc]
  rfl

theorem repr_not_dot (n : Nat) (h : n < 256) : '.' ∉ (Nat.repr n).toList :=
  fun hm => (isDigit_excl (repr_all_digits n h '.' hm)).2.2.2.1 rfl

theorem parseIPv4_ipv4String (x y z w : Nat) (hx : x < 256) (hy : y < 256)
    (hz : z < 256) (hw : w < 256) :
    parseIPv4 (ipv4String [x, y, z, w]) = some [x, y, z, w] := by
  unfold parseIPv4
  rw [ipv4String_toList,
    splitOnChar_append '.' _ _ (repr_not_dot x hx),
    splitOnChar_append '.' _ _ (repr_not_dot y hy),
    splitOnChar_append '.' _ _ (repr_not_dot z hz),
    splitOnChar_of_not_mem '.' _ (repr_not_dot w hw)]
  simp [parseIPv4Fields,
    show parseDecByte (Nat.repr x).data = some x from parseDecByte_repr x hx,
    show parseDecByte (Nat.repr y).data = some y from parseDecByte_repr y hy,
    show parseDecByte (Nat.repr z).data = some z from parseDecByte_repr z hz,
    show parseDecByte (Nat.repr w).data = some w from parseDecByte_repr w hw]

theorem ipv4String_chars (x y z w : Nat) (hx : x < 256) (hy : y < 256)
    (hz : z < 256) (hw : w < 256) :
    ∀ c ∈ (ipv4String [x, y, z, w]).toList, isDigit c = true ∨ c = '.' := by
  rw [ipv4String_toList]
  intro c hc
  simp only [List.mem_append, List.mem_cons] at hc
  rcases hc with h1 | h2 | h1 | h2 | h1 | h2 | h1
  · exact Or.inl (repr_all_digits x hx c h1)
  · exact Or.inr h2
  · exact Or.inl (repr_all_digits y hy c h1)
  · exact Or.inr h2
  · exact Or.inl (repr_all_digits z hz c h1)
  · exact Or.inr h2
  · exact Or.inl (repr_all_digits w hw c h1)

theorem ipv4String_no_special (x y z w : Nat) (hx : x < 256) (hy : y < 256)
    (hz : z < 256) (hw : w < 256) :
    ':' ∉ (ipv4String [x, y, z, w]).toList
    ∧ '[' ∉ (ipv4String [x, y, z, w]).toList
    ∧ ']' ∉ (ipv4String [x, y, z, w]).toList := by
  refine ⟨fun hm => ?_, fun hm => ?_, fun hm => ?_⟩ <;>
    rcases ipv4String_chars x y z w hx hy hz hw _ hm with hd | hd
  · exact (isDigit_excl hd).1 rfl
  · cases hd
  · exact (isDigit_excl hd).2.1 rfl
  · cases hd
  · exact (isDigit_excl hd).2.2.1 rfl
  · cases hd

theorem ipv4String_head_digit (x y z w : Nat) (hx : x < 256) :
    ∃ c, (ipv4String [x, y, z, w]).toList.head? = some c ∧ isDigit c = true := by
  rw [ipv4String_toList]
  rcases hr : (Nat.repr x).toList with _ | ⟨c, cs⟩
  · exact absurd hr (repr_ne_nil x hx)
  · refine ⟨c, by simp, ?_⟩
    exact repr_all_digits x hx c (by rw [hr]; exact List.mem_cons_self c cs)

theorem parseIP_ipv4String (x y z w : Nat) (hx : x < 256) (hy : y < 256)
    (hz : z < 256) (hw : w < 256) :
    parseIP (ipv4String [x, y, z, w]) = some (v4Mapped [x, y, z, w]) := by
  unfold parseIP
  have hfind : (ipv4String [x, y, z, w]).toList.find?
      (fun c => c = '.' || c = ':' || c = '%') = some '.' := by
    rw [ipv4String_toList, List.find?_append]
    have h1 : (Nat.repr x).toList.find?
        (fun c => c = '.' || c = ':' || c = '%') = none := by
      rw [List.find?_eq_none]
      intro c hc
      have hd := repr_all_digits x hx c hc
      have he := isDigit_excl hd
      simp [he.1, he.2.2.2.1, he.2.2.2.2]
    rw [h1]
    simp
  rw [hfind, parseIPv4_ipv4String x y z w hx hy hz hw]
  rfl

theorem SplitHostPort_no_colon (s : String) (h : ':' ∉ s.toList) :
    SplitHostPort s = none := by
  simp only [SplitHostPort]
  rw [lastIdx_eq_none s.toList ':' h]

/-- A successful `net.SplitHostPort` yields a port free of colons and
brackets (the split is at the last colon and stray brackets are rejected). -/
theorem SplitHostPort_port_chars (s host port : String)
    (h : SplitHostPort s = some (host, port)) :
    ':' ∉ port.toList ∧ '[' ∉ port.toList ∧ ']' ∉ port.toList := by
  simp only [SplitHostPort] at h
  rcases hl : lastIdx s.toList ':' with _ | i <;> rw [hl] at h <;>
    simp only [] at h
  · cases h
  · by_cases hbr : s.toList.head? = some '['
    · rw [if_pos hbr] at h
      rcases hf : s.toList.findIdx? (fun c => c = ']') with _ | e <;>
        rw [hf] at h <;> simp only [] at h
      · cases h
      · by_cases h1 : e + 1 = s.toList.length
        · rw [if_pos h1] at h; cases h
        · rw [if_neg h1] at h
          by_cases h2 : e + 1 = i
          · rw [if_pos h2] at h
            by_cases h3 : (s.toList.drop 1).contains '['
                ∨ (s.toList.drop (e + 1)).contains ']'
            · rw [if_pos h3] at h; cases h
            · rw [if_neg h3] at h
              injection h with h'
              have hport : port = String.mk (s.toList.drop (i + 1)) :=
                (congrArg Prod.snd h').symm
              subst hport
              obtain ⟨hb1, hb2⟩ := not_or.mp h3
              refine ⟨not_mem_drop_succ_lastIdx s.toList ':' i hl,
                fun hm => ?_, fun hm => ?_⟩
              · refine hb1 (List.elem_eq_true_of_mem ?_)
                have : (1 : Nat) + i = i + 1 := Nat.add_comm 1 i
                rw [show s.toList.drop (i + 1)
                    = (s.toList.drop 1).drop i by rw [List.drop_drop, this]] at hm
                exact List.mem_of_mem_drop hm
              · refine hb2 (List.elem_eq_true_of_mem ?_)
                have h21 : i + 1 = (e + 1) + 1 := by omega
                rw [show s.toList.drop (i + 1)
                    = (s.toList.drop (e + 1)).drop 1 by
                  rw [List.drop_drop, h21]] at hm
                exact List.mem_of_mem_drop hm
          · rw [if_neg h2] at h; cases h
    · rw [if_neg hbr] at h
      by_cases hc : (s.toList.take i).contains ':'
      · rw [if_pos hc] at h; cases h
      · rw [if_neg hc] at h
        by_cases hbrk : s.toList.contains '[' ∨ s.toList.contains ']'
        · rw [if_pos hbrk] at h; cases h
        · rw [if_neg hbrk] at h
          injection h with h'
          have hport : port = String.mk (s.toList.drop (i + 1)) :=
            (congrArg Prod.snd h').symm
          subst hport
          obtain ⟨hb1, hb2⟩ := not_or.mp hbrk
          refine ⟨not_mem_drop_succ_lastIdx s.toList ':' i hl,
            fun hm => ?_, fun hm => ?_⟩
          · exact hb1 (List.elem_eq_true_of_mem (List.mem_of_mem_drop hm))
          · exact hb2 (List.elem_eq_true_of_mem (List.mem_of_mem_drop hm))

/-- `net.SplitHostPort` of `host:port` where `host` is bracketless and
colon-free and `port` is free of colons and brackets: the evident split. -/
theorem SplitHostPort_join (h p : List Char) (hne : h ≠ [])
    (hh1 : ':' ∉ h) (hh2 : '[' ∉ h) (hh3 : ']' ∉ h)
    (hp1 : ':' ∉ p) (hp2 : '[' ∉ p) (hp3 : ']' ∉ p) :
    SplitHostPort (String.mk (h ++ ':' :: p)) = some (String.mk h, String.mk p) := by
  simp only [SplitHostPort]
  have hli : lastIdx (h ++ ':' :: p) ':' = some h.length :=
    lastIdx_append h p ':' hp1
  rw [show (String.mk (h ++ ':' :: p)).toList = h ++ ':' :: p from rfl, hli]
  simp only []
  have hhead : (h ++ ':' :: p).head? ≠ some '[' := by
    rcases h with _ | ⟨c, cs⟩
    · exact absurd rfl hne
    · simp only [List.cons_append, List.head?_cons]
      intro hc
      exact hh2 (by simp [Option.some.inj hc])
  rw [if_neg hhead]
  have htake : (h ++ ':' :: p).take h.length = h := List.take_left h (':' :: p)
  have hdrop : (h ++ ':' :: p).drop (h.length + 1) = p := by
    rw [show h.length + 1 = h.length + 1 from rfl]
    rw [show (h ++ ':' :: p).drop (h.length + 1)
        = ((h ++ ':' :: p).drop h.length).drop 1 by rw [List.drop_drop]]
    rw [List.drop_left h (':' :: p)]
    rfl
  have hc1 : ¬ ((h ++ ':' :: p).take h.length).contains ':' = true := by
    rw [htake]
    intro hcon
    exact hh1 (List.mem_of_elem_eq_true hcon)
  rw [if_neg hc1]
  have hbrk : ¬ ((h ++ ':' :: p).contains '[' ∨ (h ++ ':' :: p).contains ']') := by
    rintro (hcon | hcon)
    · rcases List.mem_append.mp (List.mem_of_elem_eq_true hcon) with hm | hm
      · exact hh2 hm
      · rcases List.mem_cons.mp hm with hm1 | hm2
        · cases hm1
        · exact hp2 hm2
    · rcases List.mem_append.mp (List.mem_of_elem_eq_true hcon) with hm | hm
      · exact hh3 hm
      · rcases List.mem_cons.mp hm with hm1 | hm2
        · cases hm1
        · exact hp3 hm2
  rw [if_neg hbrk, htake, hdrop]

theorem usableIPv4_some_inv (ip : IP) (b : List Nat)
    (h : usableIPv4 ip = some b) :
    to4 ip = some b ∧ isLoopback ip = false := by
  unfold usableIPv4 at h
  rcases h4 : to4 ip with _ | v <;> rw [h4] at h <;> simp only [] at h
  · cases h
  · rcases hl : isLoopback ip <;> rw [hl] at h
    · simp only [Bool.not_false, if_true] at h
      exact ⟨h, rfl⟩
    · simp only [Bool.not_true, if_false] at h
      cases h

theorem to4_shape (ip : IP) (b : List Nat) (h : to4 ip = some b) :
    b.length = 4 ∧ ∀ x ∈ b, x ∈ ip := by
  unfold to4 at h
  by_cases h4 : ip.length = 4
  · rw [if_pos h4] at h
    cases h
    exact ⟨h4, fun x hx => hx⟩
  · rw [if_neg h4] at h
    by_cases h16 : ip.length = 16 ∧ ip.take 12 = v4Prefix
    · rw [if_pos h16] at h
      cases h
      refine ⟨?_, fun x hx => List.mem_of_mem_drop hx⟩
      simp [List.length_drop, h16.1]
    · rw [if_neg h16] at h
      cases h

theorem exists_four {α : Type} (l : List α) (h : l.length = 4) :
    ∃ a b c d, l = [a, b, c, d] := by
  rcases l with _ | ⟨a, _ | ⟨b, _ | ⟨c, _ | ⟨d, _ | ⟨e, t⟩⟩⟩⟩⟩ <;>
    first
    | exact ⟨a, b, c, d, rfl⟩
    | simp at h

/-- When the advertise URL classifies as a hostname, a successful
resolution — whose result has a literal dotted-quad host — can never return
the advertise URL itself: the two `Address` values of a dual response are
distinct. -/
theorem resolve_ok_ne (env : NetEnv) (pURL ipURL : String)
    (hrt : URLRoundTrip env) (hbv : LookupBytesValid env)
    (hh : IsHostname env pURL = true)
    (hres : ResolveHostnameToIP env pURL = .ok ipURL) :
    ipURL ≠ pURL := by
  simp only [ResolveHostnameToIP] at hres
  rcases hp : env.urlParse pURL with _ | u <;> rw [hp] at hres <;>
    simp only [] at hres
  · cases hres
  · have htos : URL.toString u = pURL := hrt pURL u hp
    obtain ⟨us, uh, upt⟩ := u
    have hcancel : ∀ nh : String,
        URL.toString { scheme := us, host := nh, path := upt } = pURL →
        nh = uh := by
      intro nh hnh
      have hd := congrArg String.data (hnh.trans htos.symm)
      simp only [URL.toString, String.data_append, List.append_assoc] at hd
      have h1 := List.append_cancel_left hd
      have h2 := List.append_cancel_left h1
      have h3 := List.append_cancel_right h2
      exact String.ext h3
    rcases hlk : env.lookupIP (hostPortOf uh).1 with _ | ips <;>
      rw [hlk] at hres <;> simp only [] at hres
    · cases hres
    · rcases hfs : ips.findSome? usableIPv4 with _ | ipv4 <;>
        rw [hfs] at hres <;> simp only [] at hres
      · cases hres
      · obtain ⟨ip, hmem, hbody⟩ := List.exists_of_findSome?_eq_some hfs
        obtain ⟨h4, hlb⟩ := usableIPv4_some_inv ip ipv4 hbody
        obtain ⟨hlen4, hsub⟩ := to4_shape ip ipv4 h4
        have hbytes : ∀ x ∈ ipv4, x < 256 := fun x hx =>
          hbv _ _ hlk ip hmem x (hsub x hx)
        obtain ⟨x, y, z, w, rfl⟩ := exists_four ipv4 hlen4
        have hx : x < 256 := hbytes x (by simp)
        have hy : y < 256 := hbytes y (by simp)
        have hz : z < 256 := hbytes z (by simp)
        have hw : w < 256 := hbytes w (by simp)
        obtain ⟨hnc, hnb1, hnb2⟩ := ipv4String_no_special x y z w hx hy hz hw
        have hparse := parseIP_ipv4String x y z w hx hy hz hw
        have hhane : (ipv4String [x, y, z, w]).toList ≠ [] := by
          obtain ⟨c, hc, _⟩ := ipv4String_head_digit x y z w hx
          intro hnil
          rw [hnil] at hc
          cases hc
        intro heq
        rcases hsp : SplitHostPort uh with _ | pr
        · have hpf : hostPortOf uh = (uh, "") := by simp [hostPortOf, hsp]
          rw [hpf] at hres
          rw [if_neg (by simp)] at hres
          have hres2 : URL.toString
              { scheme := us, host := ipv4String [x, y, z, w], path := upt }
              = pURL := by
            rw [show URL.toString
                { scheme := us, host := ipv4String [x, y, z, w], path := upt }
                = ipURL from Except.ok.inj hres, heq]
          have huh : ipv4String [x, y, z, w] = uh := hcancel _ hres2
          simp only [IsHostname, hp, hpf] at hh
          rw [← huh, hparse] at hh
          cases hh
        · obtain ⟨h0, p0⟩ := pr
          have hpf : hostPortOf uh = (h0, p0) := by simp [hostPortOf, hsp]
          rw [hpf] at hres
          by_cases hp0 : p0 = ""
          · subst hp0
            rw [if_neg (by simp)] at hres
            have hres2 : URL.toString
                { scheme := us, host := ipv4String [x, y, z, w], path := upt }
                = pURL := by
              rw [show URL.toString
                  { scheme := us, host := ipv4String [x, y, z, w], path := upt }
                  = ipURL from Except.ok.inj hres, heq]
            have huh : ipv4String [x, y, z, w] = uh := hcancel _ hres2
            rw [← huh] at hsp
            rw [SplitHostPort_no_colon _ hnc] at hsp
            cases hsp
          · have hjoin : JoinHostPort (ipv4String [x, y, z, w]) p0
                = ipv4String [x, y, z, w] ++ ":" ++ p0 := by
              unfold JoinHostPort
              rw [if_neg]
              intro hcon
              exact hnc (List.mem_of_elem_eq_true hcon)
            rw [if_pos hp0, hjoin] at hres
            have hres2 : URL.toString
                { scheme := us, host := ipv4String [x, y, z, w] ++ ":" ++ p0,
                  path := upt } = pURL := by
              rw [show URL.toString
                  { scheme := us, host := ipv4String [x, y, z, w] ++ ":" ++ p0,
                    path := upt } = ipURL from Except.ok.inj hres, heq]
            have huh : ipv4String [x, y, z, w] ++ ":" ++ p0 = uh := hcancel _ hres2
            obtain ⟨hq1, hq2, hq3⟩ := SplitHostPort_port_chars uh h0 p0 hsp
            have hmkstr : ipv4String [x, y, z, w] ++ ":" ++ p0
                = String.mk ((ipv4String [x, y, z, w]).toList ++ ':' :: p0.toList) := by
              apply String.ext
              simp [String.data_append]
            have hsplit2 : SplitHostPort (ipv4String [x, y, z, w] ++ ":" ++ p0)
                = some (ipv4String [x, y, z, w], p0) := by
              rw [hmkstr]
              exact SplitHostPort_join _ _ hhane hnc hnb1 hnb2 hq1 hq2 hq3
            rw [← huh, hsplit2] at hsp
            have hh0 : h0 = ipv4String [x, y, z, w] :=
              (congrArg Prod.fst (Option.some.inj hsp)).symm
            simp only [IsHostname, hp, hpf] at hh
            rw [hh0, hparse] at hh
            cases hh

/-- **C1** For an accepted request whose identity resolution succeeded and
whose advertise URL (`PROXY_URL`) is configured: when the advertise URL
classifies as a hostname and its resolution to a literal IPv4 succeeds, the
handler sends exactly two distinct datagrams — first the hostname-form
`Address`, then the literal-IP form; when resolution fails only the
hostname-form datagram is sent; when the advertise URL is already a literal
IP, exactly one datagram is sent.  (`URLRoundTrip` and `LookupBytesValid`
record that the oracles behave as Go's `net/url` and `net` packages do.) -/
theorem HandleRequest_dual_response (env : NetEnv)
    (clientIP serverURL proxyURL : String) (cache : ServerInfoCache)
    (bl : IPBlacklist) (stats : RequestStats) (now : Nat)
    (hrt : URLRoundTrip env) (hbv : LookupBytesValid env)
    (hb : bl.IsBlocked clientIP = false)
    (serverInfo : SystemInfoResponse)
    (hid : cache.Get now = some serverInfo
      ∨ (cache.Get now = none ∧ (FetchInfo env serverURL).2 = .ok serverInfo))
    (hpne : proxyURL ≠ "") :
    (∀ ipURL, IsHostname env proxyURL = true →
      ResolveHostnameToIP env proxyURL = .ok ipURL →
      (HandleRequest env clientIP serverURL proxyURL cache bl stats now).sends
        = [SendResponse proxyURL serverInfo, SendResponse ipURL serverInfo]
      ∧ SendResponse proxyURL serverInfo ≠ SendResponse ipURL serverInfo)
    ∧ (∀ e, IsHostname env proxyURL = true →
        ResolveHostnameToIP env proxyURL = .error e →
        (HandleRequest env clientIP serverURL proxyURL cache bl stats now).sends
          = [SendResponse proxyURL serverInfo])
    ∧ (IsHostname env proxyURL = false →
        (HandleRequest env clientIP serverURL proxyURL cache bl stats now).sends
          = [SendResponse proxyURL serverInfo]) := by
  have hsends :
      (HandleRequest env clientIP serverURL proxyURL cache bl stats now).sends
        = buildResponses env serverURL proxyURL serverInfo := by
    unfold HandleRequest
    rw [if_neg (by simp [hb])]
    rcases hid with hhit | ⟨hmiss, hok⟩
    · rw [hhit]
    · rw [hmiss]
      rcases hf : FetchInfo env serverURL with ⟨reqs, res⟩
      rw [hf] at hok
      cases res with
      | error e2 => exact absurd hok (by simp)
      | ok info2 =>
        have h2 : info2 = serverInfo := by
          have h3 := hok
          simp only [] at h3
          exact Except.ok.inj h3
        subst h2
        rfl
  rw [hsends]
  refine ⟨fun ipURL hh hres => ⟨?_, ?_⟩, fun e hh hres => ?_, fun hh => ?_⟩
  · simp [buildResponses, hpne, hh, hres]
  · intro hEq
    have hA : proxyURL = ipURL := congrArg JellyfinDiscoveryResponse.Address hEq
    exact resolve_ok_ne env proxyURL ipURL hrt hbv hh hres hA.symm
  · simp [buildResponses, hpne, hh, hres]
  · simp [buildResponses, hpne, hh]

theorem HandleRequest_dual_response_witness :
    (HandleRequest tableEnv "192.168.1.77" "http://192.168.1.50:8096"
        "http://myserver:8096" cacheFresh blEmpty stats0 60).sends
      = [SendResponse "http://myserver:8096" ⟨"abc123", "Home Media"⟩,
         SendResponse "http://10.0.0.5:8096" ⟨"abc123", "Home Media"⟩]
    ∧ SendResponse "http://myserver:8096" ⟨"abc123", "Home Media"⟩
        ≠ SendResponse "http://10.0.0.5:8096" ⟨"abc123", "Home Media"⟩
    ∧ (HandleRequest tableEnv "192.168.1.77" "http://myserver:8096"
        "http://192.168.1.50:8096" cacheFresh blEmpty stats0 60).sends
      = [SendResponse "http://192.168.1.50:8096" ⟨"abc123", "Home Media"⟩] := by
  have w1 := (HandleRequest_dual_response tableEnv "192.168.1.77"
    "http://192.168.1.50:8096" "http://myserver:8096" cacheFresh blEmpty stats0
    60 tableEnv_roundtrip tableEnv_bytesValid (by decide)
    ⟨"abc123", "Home Media"⟩ (Or.inl (by decide)) (by decide)).1
    "http://10.0.0.5:8096" (by decide) rfl
  have w2 := (HandleRequest_dual_response tableEnv "192.168.1.77"
    "http://myserver:8096" "http://192.168.1.50:8096" cacheFresh blEmpty stats0
    60 tableEnv_roundtrip tableEnv_bytesValid (by decide)
    ⟨"abc123", "Home Media"⟩ (Or.inl (by decide)) (by decide)).2.2 (by decide)
  exact ⟨w1.1, w1.2, w2⟩

end JDP
